import Mathlib

/-!
Verification of the validation engine of `dbt-gdpr-anonymizer`
(`src/dbt_gdpr_anonymizer/scripts/validate_anonymization.py`).

The development shallowly embeds the validator: the DuckDB store is a
structure holding the catalog rows, the sampled column values and the rows of
the enriched table; every SQL query issued by the script becomes a Lean
function over that structure, and every `conn.execute` that may raise is
modelled by a failure flag on the connection.  Python `re` search over the
three PII patterns is embedded by a small backtracking-complete regex engine
(`matchEnds` enumerates every possible end position of a match starting at a
given index, so `reSearch` holds exactly when Python `re.search` finds a
match).  Character classes are the ASCII readings of the classes appearing in
the source patterns, and SQL DOUBLE columns are modelled by `ℚ`.
-/

namespace GdprAnon

/-! ## Regex engine

Syntax restricted to exactly the constructs used by the three patterns of the
source: character classes, literals (case sensitive and insensitive),
concatenation, alternation, class repetitions `*`, `+`, `{n}`, `{n,}`,
negative lookahead and the word boundary `\b`. -/

inductive RE where
  | eps : RE
  | cls (p : Char → Bool) : RE
  | lit (cs : List Char) : RE
  | litCI (cs : List Char) : RE
  | seq (r1 r2 : RE) : RE
  | alt (r1 r2 : RE) : RE
  | star (p : Char → Bool) : RE
  | plus (p : Char → Bool) : RE
  | repExact (p : Char → Bool) (n : Nat) : RE
  | repAtLeast (p : Char → Bool) (n : Nat) : RE
  | nlk (r : RE) : RE
  | wb : RE

/-- Length of the maximal prefix of `s` whose characters satisfy `p`. -/
def runLen (p : Char → Bool) : List Char → Nat
  | [] => 0
  | c :: cs => if p c then runLen p cs + 1 else 0

/-- Run length of class `p` in `s` starting at index `i`. -/
def runLenFrom (p : Char → Bool) (s : List Char) (i : Nat) : Nat :=
  runLen p (s.drop i)

/-- ASCII reading of the `re` word character `\w`. -/
def isWordChar (c : Char) : Bool :=
  c.isAlphanum || c == '_'

/-- Is the character at index `i` of `s` a word character (out of range counts
as non-word, as at the edges of the subject in Python `re`). -/
def wordAt (s : List Char) (i : Nat) : Bool :=
  match s[i]? with
  | some c => isWordChar c
  | none => false

/-- Wordness of the character just before index `i`. -/
def leftWordAt (s : List Char) (i : Nat) : Bool :=
  match i with
  | 0 => false
  | j + 1 => wordAt s j

/-- Python `\b`: the wordness changes at index `i`. -/
def wordBoundaryAt (s : List Char) (i : Nat) : Bool :=
  leftWordAt s i != wordAt s i

/-- All end positions of a match of `r` in `s` that starts at index `i`.
Because every repetition count and every alternative is enumerated, the list
is non-empty exactly when a backtracking matcher (Python `re`) can match `r`
at `i`. -/
def matchEnds : RE → List Char → Nat → List Nat
  | .eps, _, i => [i]
  | .cls p, s, i =>
    match s[i]? with
    | some c => if p c then [i + 1] else []
    | none => []
  | .lit cs, s, i =>
    if cs.isPrefixOf (s.drop i) then [i + cs.length] else []
  | .litCI cs, s, i =>
    if (cs.map Char.toLower).isPrefixOf ((s.drop i).take cs.length |>.map Char.toLower) then
      [i + cs.length]
    else []
  | .seq r1 r2, s, i => (matchEnds r1 s i).flatMap (fun j => matchEnds r2 s j)
  | .alt r1 r2, s, i => matchEnds r1 s i ++ matchEnds r2 s i
  | .star p, s, i => (List.range (runLenFrom p s i + 1)).map (fun d => i + d)
  | .plus p, s, i => (List.range (runLenFrom p s i)).map (fun d => i + d + 1)
  | .repExact p n, s, i => if n ≤ runLenFrom p s i then [i + n] else []
  | .repAtLeast p n, s, i =>
    let r := runLenFrom p s i
    if n ≤ r then (List.range (r - n + 1)).map (fun d => i + n + d) else []
  | .nlk r, s, i => if (matchEnds r s i).isEmpty then [i] else []
  | .wb, s, i => if wordBoundaryAt s i then [i] else []

/-- Python `re.search`: some start position `0 ≤ i ≤ length` begins a match. -/
def reSearch (r : RE) (s : List Char) : Bool :=
  (List.range (s.length + 1)).any (fun i => !(matchEnds r s i).isEmpty)

/-- Concatenation of a list of regexes. -/
def seqs (rs : List RE) : RE :=
  rs.foldr RE.seq RE.eps

/-! ## The three source patterns -/

/-- The class `[A-Za-z0-9._%+-]` of the email local part. -/
def emailLocalChar (c : Char) : Bool :=
  c.isAlphanum || c == '.' || c == '_' || c == '%' || c == '+' || c == '-'

/-- The class `[A-Za-z0-9.-]` of the email domain part. -/
def emailDomChar (c : Char) : Bool :=
  c.isAlphanum || c == '.' || c == '-'

/-- The class `[A-Z|a-z]` of the email top level domain (note that the class
written in the source contains a literal bar). -/
def emailTldChar (c : Char) : Bool :=
  ('A' ≤ c && c ≤ 'Z') || c == '|' || ('a' ≤ c && c ≤ 'z')

/-- `\s`. -/
def wsChar (c : Char) : Bool :=
  c.isWhitespace

/-- `\d`. -/
def digitChar (c : Char) : Bool :=
  c.isDigit

/-- The anonymization domain checked by the negative lookahead of the email
pattern: `anonymized\.gouv\.fr`. -/
def anonDomain : List Char :=
  ("anonymized.gouv.fr").toList

/-- The part of the email pattern after the at sign:
`(?!anonymized\.gouv\.fr)[A-Za-z0-9.-]+\.[A-Z|a-z]{2,}\b`. -/
def emailTail : RE :=
  .seq (.nlk (.lit anonDomain))
    (.seq (.plus emailDomChar)
      (.seq (.lit [ '.' ])
        (.seq (.repAtLeast emailTldChar 2) .wb)))

/-- The email pattern from its at sign on. -/
def emailAt : RE :=
  .seq (.lit [ '@' ]) emailTail

/-- Source `EMAIL_PATTERN`:
`\b[A-Za-z0-9._%+-]+@(?!anonymized\.gouv\.fr)[A-Za-z0-9.-]+\.[A-Z|a-z]{2,}\b`. -/
def EMAIL_PATTERN : RE :=
  .seq .wb (.seq (.plus emailLocalChar) emailAt)

/-- Source `PHONE_PATTERN`:
`\+33\s*[1-9]\s*\d{2}\s*\d{2}\s*\d{2}\s*\d{2}(?!\s*XX)`. -/
def PHONE_PATTERN : RE :=
  seqs [ .lit (("+33").toList), .star wsChar, .cls (fun c => '1' ≤ c && c ≤ '9'),
    .star wsChar, .repExact digitChar 2, .star wsChar, .repExact digitChar 2,
    .star wsChar, .repExact digitChar 2, .star wsChar, .repExact digitChar 2,
    .nlk (.seq (.star wsChar) (.lit (("XX").toList))) ]

/-- Source `ADDRESS_PATTERN` (compiled with `re.IGNORECASE`):
`\d+\s+(?:rue|avenue|boulevard|place|impasse)\s+[\w\s]+`. -/
def ADDRESS_PATTERN : RE :=
  seqs [ .plus digitChar, .plus wsChar,
    .alt (.litCI (("rue").toList))
      (.alt (.litCI (("avenue").toList))
        (.alt (.litCI (("boulevard").toList))
          (.alt (.litCI (("place").toList)) (.litCI (("impasse").toList))))),
    .plus wsChar, .plus (fun c => isWordChar c || wsChar c) ]

/-- `EMAIL_PATTERN.search(value)` of the source, as a boolean. -/
def emailSearch (v : String) : Bool :=
  reSearch EMAIL_PATTERN v.toList

/-- `PHONE_PATTERN.search(value)` of the source, as a boolean. -/
def phoneSearch (v : String) : Bool :=
  reSearch PHONE_PATTERN v.toList

/-- `ADDRESS_PATTERN.search(value)` of the source, as a boolean. -/
def addressSearch (v : String) : Bool :=
  reSearch ADDRESS_PATTERN v.toList

/-! ## Data model of the store

A `DB` holds the content the validator reads: the rows of
`information_schema.tables` and `information_schema.columns`, the answer of
the bounded `SELECT DISTINCT` sample query for each marts column (its order
is chosen by the engine, hence stored rather than derived), and the rows of
the enriched table.  A `Conn` wraps a `DB` with one failure flag per
`conn.execute` site, modelling the exceptions a DuckDB call may raise. -/

/-- One row of `{schema}.int_services_enriched` restricted to the columns the
validator reads.  SQL DOUBLE is modelled by `ℚ`. -/
structure EnrichedRow where
  contact_email_anon : Option String
  contact_phone_anon : Option String
  latitude_anon : Option ℚ
  longitude_anon : Option ℚ
  organization_category : Option String
deriving DecidableEq, Repr

/-- The store contents read by the validator. -/
structure DB where
  /-- `information_schema.tables` rows as `(table_schema, table_name)`. -/
  tablesCatalog : List (String × String)
  /-- `information_schema.columns` rows as
  `(table_schema, table_name, column_name, data_type)`. -/
  columnsCatalog : List (String × String × String × String)
  /-- Result of the sample query
  `SELECT DISTINCT col FROM marts.t WHERE col IS NOT NULL LIMIT 100`
  for table `t` and column `col`, in the order the engine returns it. -/
  sample : String → String → List String
  /-- Rows of the enriched table. -/
  enriched : List EnrichedRow

/-- A connection: store contents plus one failure flag per query site. -/
structure Conn where
  db : DB
  /-- `duckdb.connect` raises. -/
  failConnect : Bool
  /-- the `information_schema.tables` query of `get_schema` raises. -/
  failSchemaQuery : Bool
  /-- the marts table enumeration query raises. -/
  failMartsList : Bool
  /-- the column enumeration query for a given marts table raises. -/
  failColumns : String → Bool
  /-- the sample query for a given table and column raises (this is the one
  `conn.execute` wrapped in `try` in the source). -/
  failSample : String → String → Bool
  /-- the email quality aggregate query raises. -/
  failQualityEmails : Bool
  /-- the phone quality aggregate query raises. -/
  failQualityPhones : Bool
  /-- the coordinate quality aggregate query raises. -/
  failQualityCoords : Bool
  /-- the k-anonymity group query raises. -/
  failKAnon : Bool

/-! ## Queries -/

/-- `SELECT table_schema FROM information_schema.tables WHERE table_name =
int_services_enriched` followed by `fetchone`. -/
def schemaLookup (db : DB) : Option String :=
  ((db.tablesCatalog.filter (fun r => r.2 == "int_services_enriched")).map (fun r => r.1)).head?

/-- `SELECT table_name FROM information_schema.tables WHERE table_schema =
marts`. -/
def martsTables (db : DB) : List String :=
  (db.tablesCatalog.filter (fun r => r.1 == "marts")).map (fun r => r.2)

/-- `SELECT column_name, data_type FROM information_schema.columns WHERE
table_schema = marts AND table_name = t AND data_type IN
(VARCHAR, TEXT)`. -/
def textColumns (db : DB) (t : String) : List String :=
  (db.columnsCatalog.filter
    (fun r => r.1 == "marts" && r.2.1 == t && (r.2.2.2 == "VARCHAR" || r.2.2.2 == "TEXT"))).map
    (fun r => r.2.2.1)

/-! ## Validation functions -/

/-- A finding `(table, column, issue description)`, as the tuples the source
appends to `issues`. -/
abbrev Finding := String × String × String

/-- Issue string of the email rule. -/
def emailIssue : String := "Non-anonymized email detected"

/-- Issue string of the phone rule. -/
def phoneIssue : String := "Unmasked phone number detected"

/-- Issue string of the address rule. -/
def addressIssue : String := "Precise address detected"

/-- Body of the per-value loop of `check_no_pii_in_marts`: the three patterns
are tried in order, each match appending one finding. -/
def scanValue (table_name col_name value : String) : List Finding :=
  (if emailSearch value then [ ("marts." ++ table_name, col_name, emailIssue) ] else []) ++
  (if phoneSearch value then [ ("marts." ++ table_name, col_name, phoneIssue) ] else []) ++
  (if addressSearch value then [ ("marts." ++ table_name, col_name, addressIssue) ] else [])

/-- Findings contributed by one column of one marts table: the sample query
runs inside `try`, so a raising query is logged and yields no findings; the
`if value:` guard skips falsy (empty) strings. -/
def sampleColumn (c : Conn) (t col : String) : List Finding :=
  if c.failSample t col then []
  else ((c.db.sample t col).filter (fun v => v ≠ "")).flatMap (fun v => scanValue t col v)

/-- Findings of one marts table.  The column enumeration query is outside the
`try`, so its failure propagates out of `check_no_pii_in_marts`. -/
def scanTable (c : Conn) (t : String) : Except Unit (List Finding) :=
  if c.failColumns t then .error ()
  else .ok ((textColumns c.db t).flatMap (fun col => sampleColumn c t col))

/-- The table loop of `check_no_pii_in_marts`: findings are accumulated in
table order, and a raising column enumeration aborts the loop, losing the
local accumulator. -/
def scanTables (c : Conn) : List String → Except Unit (List Finding)
  | [] => .ok []
  | t :: ts =>
    match scanTable c t with
    | .error e => .error e
    | .ok fs =>
      match scanTables c ts with
      | .error e => .error e
      | .ok rest => .ok (fs ++ rest)

/-- Source `check_no_pii_in_marts`. -/
def check_no_pii_in_marts (c : Conn) : Except Unit (List Finding) :=
  if c.failMartsList then .error ()
  else scanTables c (martsTables c.db)

/-- SQL `value LIKE` with a percent-suffix pattern for a pattern whose only wildcard is the
leading percent. -/
def likeEndsWith (v suffix : String) : Bool :=
  suffix.toList.isSuffixOf v.toList

/-- SQL `SUM(CASE WHEN p THEN 1 ELSE 0 END)` over the rows `vs`: NULL (here
`none`) when there is no row to sum, else the count of rows satisfying `p`. -/
def sqlSumOver {α : Type} (vs : List α) (p : α → Bool) : Option Nat :=
  if vs.isEmpty then none else some (vs.filter p).length

/-- `success_rate` as computed in the source:
`(result[1] / result[0] * 100) if result[0] > 0 else 0`, where `result[1]` is
the summed compliant count.  The sum is NULL exactly when zero rows were
aggregated, and then `result[0] = 0` sends Python into the `else` branch, so
the NULL never reaches the division. -/
def ratePercentOpt (proper : Option Nat) (total : Nat) : ℚ :=
  match proper with
  | some p => if 0 < total then (p : ℚ) / (total : ℚ) * 100 else 0
  | none => 0

/-- Metric dictionary for the email category.  The two summed counts are
`Option Nat` because SQL `SUM` over zero rows is NULL (Python `None`). -/
structure EmailMetric where
  total : Nat
  properly_anonymized : Option Nat
  improperly_anonymized : Option Nat
  success_rate : ℚ
deriving DecidableEq, Repr

/-- Metric dictionary for the phone category. -/
structure PhoneMetric where
  total : Nat
  properly_masked : Option Nat
  improperly_masked : Option Nat
  success_rate : ℚ
deriving DecidableEq, Repr

/-- Metric dictionary for the coordinates category. -/
structure CoordMetric where
  total : Nat
  properly_rounded : Option Nat
  success_rate : ℚ
deriving DecidableEq, Repr

/-- The `metrics` dictionary built by `check_anonymization_quality`. -/
structure Metrics where
  emails : EmailMetric
  phones : PhoneMetric
  coordinates : CoordMetric
deriving DecidableEq, Repr

/-- Non-null `contact_email_anon` values (the `WHERE` clause of the email
aggregate query). -/
def emailValues (rows : List EnrichedRow) : List String :=
  rows.filterMap (fun r => r.contact_email_anon)

/-- Non-null `contact_phone_anon` values. -/
def phoneValues (rows : List EnrichedRow) : List String :=
  rows.filterMap (fun r => r.contact_phone_anon)

/-- Rows where both coordinates are non-null. -/
def coordValues (rows : List EnrichedRow) : List (ℚ × ℚ) :=
  rows.filterMap (fun r =>
    match r.latitude_anon, r.longitude_anon with
    | some a, some b => some (a, b)
    | _, _ => none)

/-- SQL `(x * 100) = FLOOR(x * 100)`. -/
def rounded2 (q : ℚ) : Bool :=
  q * 100 = ((⌊q * 100⌋ : ℤ) : ℚ)

/-- The email aggregate of `check_anonymization_quality` computed over the
enriched rows. -/
def emailMetricOf (rows : List EnrichedRow) : EmailMetric :=
  let vs := emailValues rows
  let proper := sqlSumOver vs (fun v => likeEndsWith v ("@anonymized.gouv.fr"))
  let improper := sqlSumOver vs (fun v => !likeEndsWith v ("@anonymized.gouv.fr"))
  { total := vs.length, properly_anonymized := proper, improperly_anonymized := improper,
    success_rate := ratePercentOpt proper vs.length }

/-- The phone aggregate of `check_anonymization_quality`. -/
def phoneMetricOf (rows : List EnrichedRow) : PhoneMetric :=
  let vs := phoneValues rows
  let proper := sqlSumOver vs (fun v => likeEndsWith v ("XX XX XX XX"))
  let improper := sqlSumOver vs (fun v => !likeEndsWith v ("XX XX XX XX"))
  { total := vs.length, properly_masked := proper, improperly_masked := improper,
    success_rate := ratePercentOpt proper vs.length }

/-- The coordinate aggregate of `check_anonymization_quality`. -/
def coordMetricOf (rows : List EnrichedRow) : CoordMetric :=
  let vs := coordValues rows
  let proper := sqlSumOver vs (fun p => rounded2 p.1 && rounded2 p.2)
  { total := vs.length, properly_rounded := proper,
    success_rate := ratePercentOpt proper vs.length }

/-- The full metrics dictionary over the enriched rows. -/
def computeMetrics (rows : List EnrichedRow) : Metrics :=
  { emails := emailMetricOf rows, phones := phoneMetricOf rows,
    coordinates := coordMetricOf rows }

/-- Source `check_anonymization_quality`: three aggregate queries in
sequence, any of which may raise (losing the partial dictionary). -/
def check_anonymization_quality (c : Conn) (schema : String) : Except Unit Metrics :=
  if c.failQualityEmails then .error ()
  else if c.failQualityPhones then .error ()
  else if c.failQualityCoords then .error ()
  else .ok (computeMetrics c.db.enriched)

/-- `GROUP BY organization_category` with `COUNT(*)`, in first appearance
order (SQL leaves the group order unspecified; it is sorted afterwards). -/
def groupSizes (rows : List EnrichedRow) : List (Option String × Nat) :=
  ((rows.map (fun r => r.organization_category)).dedup).map
    (fun g => (g, (rows.filter (fun r => r.organization_category == g)).length))

/-- Insert into a list sorted by ascending group size. -/
def insertBySize (x : Option String × Nat) : List (Option String × Nat) → List (Option String × Nat)
  | [] => [x]
  | y :: ys => if x.2 ≤ y.2 then x :: y :: ys else y :: insertBySize x ys

/-- `ORDER BY group_size ASC` (ties are in unspecified order in SQL; an
insertion sort realises one admissible order). -/
def sortBySize : List (Option String × Nat) → List (Option String × Nat)
  | [] => []
  | x :: xs => insertBySize x (sortBySize xs)

/-- The rows fetched by the k-anonymity query: groups of size below `k`,
ordered by ascending size. -/
def kViolations (rows : List EnrichedRow) (k : Nat) : List (Option String × Nat) :=
  sortBySize ((groupSizes rows).filter (fun g => g.2 < k))

/-- Source `check_k_anonymity`: `True` iff the violation query returned no
row.  Only this boolean is returned; the fetched rows stay local. -/
def check_k_anonymity (c : Conn) (schema : String) (k : Nat) : Except Unit Bool :=
  if c.failKAnon then .error ()
  else .ok (kViolations c.db.enriched k).isEmpty

/-! ## Orchestrator -/

/-- The stages of one run, recorded as a ghost trace of `main`. -/
inductive Stage where
  | resolveSchema | scanPII | assessQuality | checkKAnon | report
deriving DecidableEq, Repr

/-- Observable outcome of `main`: the process exit status, the argument of
`display_results` when it was reached, and the executed stages. -/
structure RunOutcome where
  exitCode : Nat
  displayed : Option (List Finding × Metrics × Bool)
  stages : List Stage
deriving DecidableEq, Repr

/-- Source `get_schema`: the catalog query may raise; `fetchone` returning no
row makes the source call `sys.exit(1)` (handled by `main` below). -/
def get_schema (c : Conn) : Except Unit (Option String) :=
  if c.failSchemaQuery then .error ()
  else .ok (schemaLookup c.db)

/-- Source `main`: connect, then inside one `try` run the four stages in
sequence, display, and exit `0` on `not issues and k_anonymity_ok`, else `1`.
A raising stage is caught by the single `except Exception` handler (exit `1`,
nothing displayed); the `sys.exit(1)` of `get_schema` is a `SystemExit`,
which the handler does not catch, and likewise exits `1` before any display. -/
def main (c : Conn) : RunOutcome :=
  if c.failConnect then { exitCode := 1, displayed := none, stages := [] }
  else
    match get_schema c with
    | .error _ => ⟨1, none, [ .resolveSchema ]⟩
    | .ok none => ⟨1, none, [ .resolveSchema ]⟩
    | .ok (some schema) =>
      match check_no_pii_in_marts c with
      | .error _ => ⟨1, none, [ .resolveSchema, .scanPII ]⟩
      | .ok issues =>
        match check_anonymization_quality c schema with
        | .error _ => ⟨1, none, [ .resolveSchema, .scanPII, .assessQuality ]⟩
        | .ok metrics =>
          match check_k_anonymity c schema 5 with
          | .error _ => ⟨1, none, [ .resolveSchema, .scanPII, .assessQuality, .checkKAnon ]⟩
          | .ok kOk =>
            ⟨if !issues.isEmpty || !kOk then 1 else 0,
             some (issues, metrics, kOk),
             [ .resolveSchema, .scanPII, .assessQuality, .checkKAnon, .report ]⟩

/-! ## Pattern rules as an ordered table (the form of spec section 9) -/

/-- A named predicate rule: a matcher and the issue string of its findings. -/
structure PIIRule where
  matcher : String → Bool
  issue : String

/-- The three rules in source order: email, phone, address. -/
def piiRules : List PIIRule :=
  [ ⟨emailSearch, emailIssue⟩, ⟨phoneSearch, phoneIssue⟩, ⟨addressSearch, addressIssue⟩ ]

/-- Claim C5: each sampled value is tested against all three rules
independently and in the fixed order email, phone, address; classification
does not stop at a first match, so the findings of a value are exactly one
finding per matching rule, in rule order, each carrying the table, the
column, and the issue type of that rule. -/
theorem scanValue_eq_rule_filter (t col v : String) :
    scanValue t col v =
      (piiRules.filter (fun r => r.matcher v)).map (fun r => ("marts." ++ t, col, r.issue)) := by
  cases he : emailSearch v <;> cases hp : phoneSearch v <;> cases ha : addressSearch v <;>
    simp [scanValue, piiRules, he, hp, ha]

/-- Claim C6: the value `jean.dupont@mairie.fr` is flagged as a
non-anonymized email, and the value `jean.dupont@anonymized.gouv.fr` (the
designated anonymization domain) is not flagged at all. -/
theorem email_rule_scenario :
    scanValue ("services") ("contact") ("jean.dupont@mairie.fr") =
      [ ("marts.services", "contact", emailIssue) ] ∧
    scanValue ("services") ("contact") ("jean.dupont@anonymized.gouv.fr") = [] := by
  exact ⟨by decide, by decide⟩

/-! ## Quality metric invariants

SQL `SUM` over zero aggregated rows is NULL, so on an empty total the
compliant counts degrade to `none` rather than `0`; the success rate is still
exactly `0` there because the source guards the division on `total > 0`. -/

/-- The contract of one quality metric as the code actually computes it: on an
empty total the compliant count is NULL and the rate is exactly zero; on a
positive total the compliant count is a number bounded by the total and the
rate is the percentage formula; the rate always lies within `[0, 100]`. -/
def MetricOK (total : Nat) (compliant : Option Nat) (rate : ℚ) : Prop :=
  (total = 0 → compliant = none ∧ rate = 0) ∧
  (0 < total → ∃ p, compliant = some p ∧ p ≤ total ∧
    rate = (p : ℚ) / (total : ℚ) * 100) ∧
  0 ≤ rate ∧ rate ≤ 100

theorem ratePercentOpt_nonneg (proper : Option Nat) (total : Nat) :
    0 ≤ ratePercentOpt proper total := by
  unfold ratePercentOpt
  cases proper with
  | none => exact le_refl 0
  | some p =>
    split
    · positivity
    · exact le_refl 0

theorem ratePercentOpt_le_100 {p total : Nat} (h : p ≤ total) :
    ratePercentOpt (some p) total ≤ 100 := by
  unfold ratePercentOpt
  dsimp only
  split
  next h1 =>
    have hq : (p : ℚ) / (total : ℚ) ≤ 1 :=
      (div_le_one (by exact_mod_cast h1)).mpr (by exact_mod_cast h)
    calc (p : ℚ) / (total : ℚ) * 100 ≤ 1 * 100 :=
          mul_le_mul_of_nonneg_right hq (by norm_num)
      _ = 100 := by norm_num
  next => norm_num

theorem metricOK_filter {α : Type} (vs : List α) (p : α → Bool) :
    MetricOK vs.length (sqlSumOver vs p) (ratePercentOpt (sqlSumOver vs p) vs.length) := by
  refine ⟨?_, ?_, ratePercentOpt_nonneg _ _, ?_⟩
  · intro h0
    have hemp : vs.isEmpty = true := by
      rw [List.isEmpty_iff, ← List.length_eq_zero]
      exact h0
    unfold sqlSumOver ratePercentOpt
    rw [if_pos hemp]
    exact ⟨rfl, rfl⟩
  · intro hpos
    have hemp : vs.isEmpty = false := by
      rw [List.isEmpty_eq_false]
      intro hnil
      rw [hnil] at hpos
      exact absurd hpos (by simp)
    refine ⟨(vs.filter p).length, ?_, List.length_filter_le p vs, ?_⟩
    · unfold sqlSumOver
      rw [if_neg (by simp [hemp])]
    · unfold sqlSumOver ratePercentOpt
      rw [if_neg (by simp [hemp])]
      dsimp only
      rw [if_pos hpos]
  · cases hs : sqlSumOver vs p with
    | none =>
      unfold ratePercentOpt
      norm_num
    | some q =>
      have hq : q ≤ vs.length := by
        unfold sqlSumOver at hs
        split at hs
        · exact absurd hs (by simp)
        · injection hs with hs
          rw [← hs]
          exact List.length_filter_le p vs
      exact ratePercentOpt_le_100 hq

/-- Counterexample to claim C2: on a store with no non-null candidate value,
`COUNT` is `0` but the summed compliant counts are SQL NULL (`none`), not
numbers, so the invariant `0 ≤ compliant ≤ total` is not about a value the
program produces at `total = 0`; the success rate is still exactly `0`. -/
theorem quality_sum_null_at_zero_total :
    (computeMetrics []).emails.total = 0 ∧
    (computeMetrics []).emails.properly_anonymized = none ∧
    (computeMetrics []).emails.improperly_anonymized = none ∧
    (computeMetrics []).phones.properly_masked = none ∧
    (computeMetrics []).coordinates.properly_rounded = none ∧
    (computeMetrics []).emails.success_rate = 0 := by
  exact ⟨rfl, rfl, rfl, rfl, rfl, rfl⟩

/-- Claim C2 (amended): for each of the three quality metrics, the success
rate is `compliant / total * 100` when the total is positive and exactly `0`
when the total is `0` (no division-by-zero fault), and `0 ≤ success_rate ≤
100` always holds; the bound `0 ≤ compliant ≤ total` holds whenever the total
is positive, while on an empty total the compliant count is SQL NULL. -/
theorem quality_metrics_sound (rows : List EnrichedRow) :
    MetricOK (computeMetrics rows).emails.total
      (computeMetrics rows).emails.properly_anonymized
      (computeMetrics rows).emails.success_rate ∧
    MetricOK (computeMetrics rows).phones.total
      (computeMetrics rows).phones.properly_masked
      (computeMetrics rows).phones.success_rate ∧
    MetricOK (computeMetrics rows).coordinates.total
      (computeMetrics rows).coordinates.properly_rounded
      (computeMetrics rows).coordinates.success_rate := by
  refine ⟨?_, ?_, ?_⟩
  · exact metricOK_filter (emailValues rows) (fun v => likeEndsWith v ("@anonymized.gouv.fr"))
  · exact metricOK_filter (phoneValues rows) (fun v => likeEndsWith v ("XX XX XX XX"))
  · exact metricOK_filter (coordValues rows) (fun p => rounded2 p.1 && rounded2 p.2)

/-- Rows used by the quality metric witness: two non-null emails, one
compliant. -/
def rowsC2 : List EnrichedRow :=
  [ { contact_email_anon := some ("a@anonymized.gouv.fr"), contact_phone_anon := none,
      latitude_anon := none, longitude_anon := none, organization_category := none },
    { contact_email_anon := some ("b@mairie.fr"), contact_phone_anon := none,
      latitude_anon := none, longitude_anon := none, organization_category := none } ]

/-- Witness for claim C2 (amended), exercising the empty-total branch on the
empty store and the bounds on a store with a positive email total. -/
theorem quality_metrics_sound_witness :
    ((computeMetrics []).emails.properly_anonymized = none ∧
      (computeMetrics []).emails.success_rate = 0) ∧
    0 < (computeMetrics rowsC2).emails.total ∧
    0 ≤ (computeMetrics rowsC2).emails.success_rate ∧
    (computeMetrics rowsC2).emails.success_rate ≤ 100 :=
  ⟨(quality_metrics_sound []).1.1 rfl, by decide,
    (quality_metrics_sound rowsC2).1.2.2.1, (quality_metrics_sound rowsC2).1.2.2.2⟩

/-! ## Orchestrator theorems -/

/-- The full stage trace of a run that reached the verdict. -/
def allStages : List Stage :=
  [ .resolveSchema, .scanPII, .assessQuality, .checkKAnon, .report ]

/-- Inversion: a run that displayed a report is fully determined by the
displayed findings and k-anonymity boolean. -/
theorem main_eq_of_displayed {c : Conn} {f : List Finding} {m : Metrics} {k : Bool}
    (h : (main c).displayed = some (f, m, k)) :
    main c = ⟨if !f.isEmpty || !k then 1 else 0, some (f, m, k), allStages⟩ := by
  unfold main at h ⊢
  split at h
  · simp at h
  · split at h <;> try simp at h
    case _ =>
      split at h <;> try simp at h
      case _ =>
        split at h <;> try simp at h
        case _ =>
          split at h <;> simp_all [allStages]

/-- Claim C1: in every run that reaches the verdict stage, the exit status is
`0` iff the findings list is empty and k-anonymity is satisfied, and `1`
otherwise; two runs that display the same findings and the same k-anonymity
boolean get the same exit status whatever their quality metrics are, so the
metrics never change the verdict by themselves. -/
theorem exit_iff_findings_and_k (c : Conn) (f : List Finding) (m : Metrics) (k : Bool)
    (h : (main c).displayed = some (f, m, k)) :
    ((main c).exitCode = 0 ↔ (f = [] ∧ k = true)) ∧
    ((main c).exitCode = 1 ↔ ¬(f = [] ∧ k = true)) ∧
    (∀ (c2 : Conn) (m2 : Metrics), (main c2).displayed = some (f, m2, k) →
      (main c2).exitCode = (main c).exitCode) := by
  have h1 := main_eq_of_displayed h
  refine ⟨?_, ?_, ?_⟩
  · rw [h1]
    cases f <;> cases k <;> simp
  · rw [h1]
    cases f <;> cases k <;> simp
  · intro c2 m2 h2
    rw [main_eq_of_displayed h2, h1]

/-- A connection over a given store on which no query fails. -/
def cleanConn (db : DB) : Conn :=
  { db := db,
    failConnect := false, failSchemaQuery := false, failMartsList := false,
    failColumns := fun _ => false, failSample := fun _ _ => false,
    failQualityEmails := false, failQualityPhones := false,
    failQualityCoords := false, failKAnon := false }

/-- Store used by the C1 witness: the enriched table is present, there are no
marts tables and no enriched rows, so the run passes. -/
def dbC1 : DB :=
  { tablesCatalog := [ ("main_intermediate", "int_services_enriched") ],
    columnsCatalog := [],
    sample := fun _ _ => [],
    enriched := [] }

/-- Connection used by the C1 witness. -/
def connC1 : Conn :=
  cleanConn dbC1

/-- Witness for claim C1: the clean run exits with status `0`. -/
theorem exit_iff_findings_and_k_witness : (main connC1).exitCode = 0 :=
  ((exit_iff_findings_and_k connC1 [] (computeMetrics []) true (by decide)).1).mpr
    ⟨rfl, rfl⟩

/-- Claim C3: if no catalog row carries the enriched table, the run aborts at
schema resolution: exit status `1`, nothing displayed, and no stage after
schema resolution is attempted (in particular resolution is not retried). -/
theorem missing_table_aborts (c : Conn)
    (hconn : c.failConnect = false) (hq : c.failSchemaQuery = false)
    (habs : ∀ r ∈ c.db.tablesCatalog, r.2 ≠ "int_services_enriched") :
    main c = ⟨1, none, [ .resolveSchema ]⟩ := by
  have hfilter : c.db.tablesCatalog.filter (fun r => r.2 == "int_services_enriched") = [] := by
    refine List.filter_eq_nil_iff.mpr ?_
    intro a ha
    simpa using habs a ha
  have hl : schemaLookup c.db = none := by
    unfold schemaLookup
    rw [hfilter]
    rfl
  unfold main get_schema
  simp [hconn, hq, hl]

/-- Store used by the C3 witness: a marts table exists but the enriched
table is in no schema. -/
def dbC3 : DB :=
  { tablesCatalog := [ ("marts", "services") ],
    columnsCatalog := [],
    sample := fun _ _ => [],
    enriched := [] }

/-- Connection used by the C3 witness. -/
def connC3 : Conn :=
  cleanConn dbC3

/-- Witness for claim C3. -/
theorem missing_table_aborts_witness : main connC3 = ⟨1, none, [ .resolveSchema ]⟩ :=
  missing_table_aborts connC3 rfl rfl (by decide)

/-- Store used against claim C4: one marts table with one text column whose
sample holds a raw email. -/
def dbC4 : DB :=
  { tablesCatalog := [ ("main_intermediate", "int_services_enriched"), ("marts", "services") ],
    columnsCatalog := [ ("marts", "services", "contact", "VARCHAR") ],
    sample := fun t col => if t == "services" && col == "contact" then [ "a@mairie.fr" ] else [],
    enriched := [] }

/-- Connection used against claim C4: the PII scan succeeds and finds one
issue, but the email quality query raises. -/
def connC4 : Conn :=
  { cleanConn dbC4 with failQualityEmails := true }

/-- Counterexample to claim C4: on `connC4` the scan stage succeeded with a
non-empty partial result, the quality stage raised, and the run exited with
status `1` without displaying any report and without ever running the
k-anonymity stage — so a caught exception in one of the three analysis
stages does abort the remaining stages and drops all partial results. -/
theorem stage_failure_not_isolated :
    check_no_pii_in_marts connC4 = .ok [ ("marts.services", "contact", emailIssue) ] ∧
    main connC4 = ⟨1, none, [ .resolveSchema, .scanPII, .assessQuality ]⟩ ∧
    Stage.checkKAnon ∉ (main connC4).stages ∧
    (main connC4).displayed = none := by
  refine ⟨rfl, by decide, by decide, by decide⟩

/-- Claim C4 (amended): a raising quality stage or k-anonymity stage is
caught only by the single orchestrator handler, which exits with status `1`
without displaying a report; the stages after the raising one never run. -/
theorem stage_failure_aborts (c : Conn) (schema : String) (issues : List Finding)
    (hconn : c.failConnect = false)
    (hg : get_schema c = .ok (some schema))
    (hs : check_no_pii_in_marts c = .ok issues) :
    (check_anonymization_quality c schema = .error () →
      main c = ⟨1, none, [ .resolveSchema, .scanPII, .assessQuality ]⟩) ∧
    (∀ m : Metrics, check_anonymization_quality c schema = .ok m →
      check_k_anonymity c schema 5 = .error () →
      main c = ⟨1, none, [ .resolveSchema, .scanPII, .assessQuality, .checkKAnon ]⟩) := by
  constructor
  · intro hq
    unfold main
    simp [hconn, hg, hs, hq]
  · intro m hq hk
    unfold main
    simp [hconn, hg, hs, hq, hk]

/-- Connection used by the second part of the C4 witness: only the
k-anonymity query raises. -/
def connC4b : Conn :=
  { connC4 with failQualityEmails := false, failKAnon := true }

/-- Witness for claim C4 (amended), exercising both the quality-stage and the
k-anonymity-stage failure. -/
theorem stage_failure_aborts_witness :
    main connC4 = ⟨1, none, [ .resolveSchema, .scanPII, .assessQuality ]⟩ ∧
    main connC4b = ⟨1, none, [ .resolveSchema, .scanPII, .assessQuality, .checkKAnon ]⟩ :=
  ⟨(stage_failure_aborts connC4 ("main_intermediate")
      [ ("marts.services", "contact", emailIssue) ] rfl rfl rfl).1 rfl,
    (stage_failure_aborts connC4b ("main_intermediate")
      [ ("marts.services", "contact", emailIssue) ] rfl rfl rfl).2
      (computeMetrics []) rfl rfl⟩

/-! ## K-anonymity -/

/-- An enriched row carrying only an organization category. -/
def catRow (s : String) : EnrichedRow :=
  { contact_email_anon := none, contact_phone_anon := none, latitude_anon := none,
    longitude_anon := none, organization_category := some s }

/-- Rows whose grouping by category has sizes 3, 7, 5, 2. -/
def rowsC7 : List EnrichedRow :=
  List.replicate 3 (catRow ("association")) ++ List.replicate 7 (catRow ("mairie")) ++
  List.replicate 5 (catRow ("prefecture")) ++ List.replicate 2 (catRow ("autre"))

/-- A connection over the rows with group sizes 3, 7, 5, 2. -/
def connC7 : Conn :=
  cleanConn { dbC1 with enriched := rowsC7 }

/-- A connection over rows with a single group of size 1. -/
def connC7b : Conn :=
  { connC7 with db := { connC7.db with enriched := [ catRow ("x") ] } }

/-- Counterexample to claim C7: on the
store with group sizes 3, 7, 5, 2 and k = 5 the violating groups are indeed
selected and ordered by ascending size (sizes 2 then 3) inside the checker,
but the entire checker result visible to its caller is the same as for a
store whose violating groups are completely different — so the violating
groups are not exposed to the caller. -/
theorem k_violations_not_exposed :
    check_k_anonymity connC7 ("main_intermediate") 5 =
      check_k_anonymity connC7b ("main_intermediate") 5 ∧
    kViolations connC7.db.enriched 5 = [ (some ("autre"), 2), (some ("association"), 3) ] ∧
    kViolations connC7b.db.enriched 5 = [ (some ("x"), 1) ] ∧
    kViolations connC7.db.enriched 5 ≠ kViolations connC7b.db.enriched 5 := by
  refine ⟨rfl, by decide, by decide, by decide⟩

/-- Claim C7 (amended): with k = 5 the grouping of sizes 3, 7, 5, 2 yields
`k_anonymity_satisfied = false` and the violating groups of sizes 2 and 3 in
ascending order inside the checker (their count is logged; only the boolean
reaches the caller); whenever no group is smaller than k the check returns
`True`. -/
theorem k_anonymity_verdict :
    (kViolations connC7.db.enriched 5 = [ (some ("autre"), 2), (some ("association"), 3) ] ∧
      check_k_anonymity connC7 ("main_intermediate") 5 = .ok false) ∧
    (∀ (c : Conn) (schema : String) (k : Nat), c.failKAnon = false →
      kViolations c.db.enriched k = [] → check_k_anonymity c schema k = .ok true) := by
  constructor
  · exact ⟨by decide, rfl⟩
  · intro c schema k h1 h2
    unfold check_k_anonymity
    simp [h1, h2]

/-- Witness for claim C7 (amended): a store whose one group has size 5
satisfies 5-anonymity. -/
theorem k_anonymity_verdict_witness :
    check_k_anonymity
      { connC7 with db := { connC7.db with enriched := List.replicate 5 (catRow ("seul")) } }
      ("main_intermediate") 5 = .ok true :=
  k_anonymity_verdict.2
    { connC7 with db := { connC7.db with enriched := List.replicate 5 (catRow ("seul")) } }
    ("main_intermediate") 5 rfl (by decide)

/-! ## Per-column failure isolation in the PII scan -/

theorem mem_scanValue_fields {t col v : String} {f : Finding} (hf : f ∈ scanValue t col v) :
    f.1 = "marts." ++ t ∧ f.2.1 = col := by
  cases he : emailSearch v <;> cases hp : phoneSearch v <;> cases ha : addressSearch v <;>
    simp [scanValue, he, hp, ha] at hf <;> aesop

theorem mem_sampleColumn_fields {c : Conn} {t col : String} {f : Finding}
    (hf : f ∈ sampleColumn c t col) : f.1 = "marts." ++ t ∧ f.2.1 = col := by
  unfold sampleColumn at hf
  split at hf
  · simp at hf
  · obtain ⟨v, _, hfv⟩ := List.mem_flatMap.mp hf
    exact mem_scanValue_fields hfv

theorem marts_qualified_inj {a b : String} (h : "marts." ++ a = "marts." ++ b) : a = b := by
  have hd := congrArg String.data h
  rw [String.data_append, String.data_append] at hd
  exact String.ext (List.append_cancel_left hd)

theorem scanTables_ok {c : Conn} {ts : List String} {issues : List Finding}
    (h : scanTables c ts = .ok issues) :
    (∀ t ∈ ts, c.failColumns t = false) ∧
    issues = ts.flatMap (fun t => (textColumns c.db t).flatMap (fun col => sampleColumn c t col)) := by
  induction ts generalizing issues with
  | nil =>
    unfold scanTables at h
    simp at h
    simp [h]
  | cons t ts ih =>
    unfold scanTables at h
    cases hsc : scanTable c t with
    | error e => rw [hsc] at h; exact absurd h (by simp)
    | ok fs =>
      rw [hsc] at h
      have hcol : c.failColumns t = false ∧
          fs = (textColumns c.db t).flatMap (fun col => sampleColumn c t col) := by
        unfold scanTable at hsc
        split at hsc
        · exact absurd hsc (by simp)
        · next hcf =>
          refine ⟨by simpa using hcf, ?_⟩
          injection hsc with hsc
          exact hsc.symm
      cases hrest : scanTables c ts with
      | error e => rw [hrest] at h; exact absurd h (by simp)
      | ok rest =>
        rw [hrest] at h
        injection h with h
        obtain ⟨hts, hform⟩ := ih hrest
        refine ⟨?_, ?_⟩
        · intro u hu
          rcases List.mem_cons.mp hu with rfl | hu2
          · exact hcol.1
          · exact hts u hu2
        · rw [← h, List.flatMap_cons, hcol.2, hform]

theorem scanTables_ok_of (c : Conn) (ts : List String)
    (h : ∀ t ∈ ts, c.failColumns t = false) :
    scanTables c ts =
      .ok (ts.flatMap (fun t => (textColumns c.db t).flatMap (fun col => sampleColumn c t col))) := by
  induction ts with
  | nil => rfl
  | cons t ts ih =>
    have hsc : scanTable c t =
        .ok ((textColumns c.db t).flatMap (fun col => sampleColumn c t col)) := by
      unfold scanTable
      rw [if_neg (by simp [h t (List.mem_cons_self t ts)])]
    unfold scanTables
    rw [hsc, ih (fun u hu => h u (List.mem_cons_of_mem t hu)), List.flatMap_cons]

/-- The connection `c` with the sample query of one designated column made to
raise. -/
def failOne (c : Conn) (t0 col0 : String) : Conn :=
  { c with failSample := fun t col => if t == t0 && col == col0 then true else c.failSample t col }

theorem sampleColumn_failOne (c : Conn) (t0 col0 t col : String) :
    sampleColumn (failOne c t0 col0) t col =
      (sampleColumn c t col).filter (fun f => !(f.1 == "marts." ++ t0 && f.2.1 == col0)) := by
  by_cases hsame : (t == t0 && col == col0) = true
  · have h1 : (failOne c t0 col0).failSample t col = true := by
      simp only [failOne]
      rw [if_pos hsame]
    obtain ⟨ht, hc⟩ : t = t0 ∧ col = col0 := by
      simpa [Bool.and_eq_true, beq_iff_eq] using hsame
    subst ht
    subst hc
    rw [sampleColumn, if_pos h1]
    symm
    rw [List.filter_eq_nil_iff]
    intro f hf
    obtain ⟨h2, h3⟩ := mem_sampleColumn_fields hf
    simp [h2, h3]
  · have h1 : (failOne c t0 col0).failSample t col = c.failSample t col := by
      simp only [failOne]
      rw [if_neg hsame]
    have hne : ¬(t = t0 ∧ col = col0) := by
      simpa [Bool.and_eq_true, beq_iff_eq] using hsame
    unfold sampleColumn
    rw [h1, show (failOne c t0 col0).db.sample t col = c.db.sample t col from rfl]
    split
    · simp
    · symm
      rw [List.filter_eq_self]
      intro f hf
      obtain ⟨v, _, hfv⟩ := List.mem_flatMap.mp hf
      obtain ⟨h2, h3⟩ := mem_scanValue_fields hfv
      have hfalse : (f.1 == "marts." ++ t0 && f.2.1 == col0) = false := by
        rw [h2, h3]
        by_cases ht : t = t0
        · have hcol : col ≠ col0 := fun hc => hne ⟨ht, hc⟩
          simp [beq_eq_false_iff_ne, hcol]
        · have : "marts." ++ t ≠ "marts." ++ t0 := fun hh => ht (marts_qualified_inj hh)
          simp [beq_eq_false_iff_ne, this]
      simp [hfalse]

/-- Claim C8: if a full scan succeeds with some findings then the same scan
with the sample query of any single column raising still succeeds, its
outcome being exactly the previous findings minus those of that column: the
failed column is skipped and the findings of every other column are unaffected. -/
theorem scan_isolates_column_failure (c : Conn) (t0 col0 : String) (issues : List Finding)
    (h : check_no_pii_in_marts c = .ok issues) :
    check_no_pii_in_marts (failOne c t0 col0) =
      .ok (issues.filter (fun f => !(f.1 == "marts." ++ t0 && f.2.1 == col0))) := by
  unfold check_no_pii_in_marts at h ⊢
  split at h
  · exact absurd h (by simp)
  · next hml =>
    have hml2 : ¬((failOne c t0 col0).failMartsList = true) := hml
    rw [if_neg hml2]
    obtain ⟨hcols, hform⟩ := scanTables_ok h
    rw [show (failOne c t0 col0).db = c.db from rfl]
    rw [scanTables_ok_of (failOne c t0 col0) (martsTables c.db) (fun t ht => hcols t ht)]
    rw [show (failOne c t0 col0).db = c.db from rfl]
    congr 1
    subst hform
    rw [List.filter_flatMap]
    apply List.flatMap_congr
    intro t _
    rw [List.filter_flatMap]
    apply List.flatMap_congr
    intro col _
    exact sampleColumn_failOne c t0 col0 t col

/-- Store used by the C8 witness: one marts table with two text columns, each
sampling one PII value. -/
def dbC8 : DB :=
  { tablesCatalog := [ ("main_intermediate", "int_services_enriched"), ("marts", "services") ],
    columnsCatalog := [ ("marts", "services", "contact", "VARCHAR"),
      ("marts", "services", "adresse", "TEXT") ],
    sample := fun t col =>
      if t == "services" && col == "contact" then [ "a@mairie.fr" ]
      else if t == "services" && col == "adresse" then [ "12 rue de la Paix" ]
      else [],
    enriched := [] }

/-- Connection used by the C8 witness. -/
def connC8 : Conn :=
  cleanConn dbC8

/-- The findings of the unperturbed C8 witness scan. -/
def issuesC8 : List Finding :=
  [ ("marts.services", "contact", emailIssue), ("marts.services", "adresse", addressIssue) ]

/-- Witness for claim C8: failing the `contact` column keeps exactly the
findings of the `adresse` column. -/
theorem scan_isolates_column_failure_witness :
    check_no_pii_in_marts (failOne connC8 ("services") ("contact")) =
      .ok (issuesC8.filter (fun f => !(f.1 == "marts." ++ "services" && f.2.1 == "contact"))) :=
  scan_isolates_column_failure connC8 ("services") ("contact") issuesC8 rfl

/-! ## Two runs against the same store -/

/-- The same connection with the engine answering the distinct-value sample
queries in a possibly different order (the store content is unchanged). -/
def resample (c : Conn) (s2 : String → String → List String) : Conn :=
  { c with db := { c.db with sample := s2 } }

/-- Agreement of two displayed reports: both absent, or same metrics, same
k-anonymity boolean and findings equal as multisets. -/
def SameReport : Option (List Finding × Metrics × Bool) →
    Option (List Finding × Metrics × Bool) → Prop
  | none, none => True
  | some (f1, m1, k1), some (f2, m2, k2) => f1.Perm f2 ∧ m1 = m2 ∧ k1 = k2
  | _, _ => False

theorem sampleColumn_perm (c : Conn) (s2 : String → String → List String) (t col : String)
    (hp : (c.db.sample t col).Perm (s2 t col)) :
    (sampleColumn c t col).Perm (sampleColumn (resample c s2) t col) := by
  unfold sampleColumn
  rw [show (resample c s2).failSample t col = c.failSample t col from rfl,
    show (resample c s2).db.sample t col = s2 t col from rfl]
  split
  · exact List.Perm.refl []
  · exact List.Perm.flatMap_right _ (hp.filter _)

theorem scanTables_error_of (c : Conn) (ts : List String)
    (h : ∃ t ∈ ts, c.failColumns t = true) : scanTables c ts = .error () := by
  induction ts with
  | nil => simp at h
  | cons t ts ih =>
    unfold scanTables
    obtain ⟨u, hu, hf⟩ := h
    rcases List.mem_cons.mp hu with rfl | hu2
    · rw [show scanTable c u = .error () from by unfold scanTable; rw [if_pos hf]]
    · cases hsc : scanTable c t with
      | error e => rfl
      | ok fs => rw [ih ⟨u, hu2, hf⟩]

theorem check_no_pii_rel (c : Conn) (s2 : String → String → List String)
    (hp : ∀ t ∈ martsTables c.db, ∀ col ∈ textColumns c.db t,
      (c.db.sample t col).Perm (s2 t col)) :
    (check_no_pii_in_marts c = .error () ∧ check_no_pii_in_marts (resample c s2) = .error ()) ∨
    (∃ l1 l2, check_no_pii_in_marts c = .ok l1 ∧
      check_no_pii_in_marts (resample c s2) = .ok l2 ∧ l1.Perm l2) := by
  unfold check_no_pii_in_marts
  rw [show (resample c s2).failMartsList = c.failMartsList from rfl,
    show (resample c s2).db = { c.db with sample := s2 } from rfl,
    show martsTables { c.db with sample := s2 } = martsTables c.db from rfl]
  by_cases hml : c.failMartsList = true
  · left
    rw [if_pos hml, if_pos hml]
    exact ⟨rfl, rfl⟩
  · rw [if_neg hml, if_neg hml]
    by_cases hcf : ∃ t ∈ martsTables c.db, c.failColumns t = true
    · left
      refine ⟨scanTables_error_of c _ hcf, scanTables_error_of (resample c s2) _ ?_⟩
      obtain ⟨t, ht, hf⟩ := hcf
      exact ⟨t, ht, hf⟩
    · right
      push_neg at hcf
      have hall : ∀ t ∈ martsTables c.db, c.failColumns t = false := by
        intro t ht
        cases hb : c.failColumns t
        · rfl
        · exact absurd hb (hcf t ht)
      refine ⟨_, _, scanTables_ok_of c _ hall, scanTables_ok_of (resample c s2) _ hall, ?_⟩
      rw [show (resample c s2).db = { c.db with sample := s2 } from rfl]
      refine List.Perm.flatMap_left _ ?_
      intro t ht
      refine List.Perm.flatMap_left _ ?_
      intro col hcol
      exact sampleColumn_perm c s2 t col (hp t ht col hcol)

/-- Claim C9: two runs of the validator against the same store contents — the
engine being free to return the distinct sample of each column in a different
order — produce the same exit status, the same stage trace, and displayed
reports that agree: identical metrics, identical k-anonymity boolean, and the
same findings up to permutation. -/
theorem validator_two_runs_agree (c : Conn) (s2 : String → String → List String)
    (hp : ∀ t ∈ martsTables c.db, ∀ col ∈ textColumns c.db t,
      (c.db.sample t col).Perm (s2 t col)) :
    (main (resample c s2)).exitCode = (main c).exitCode ∧
    SameReport (main (resample c s2)).displayed (main c).displayed ∧
    (main (resample c s2)).stages = (main c).stages := by
  have hcc : (resample c s2).failConnect = c.failConnect := rfl
  have hgs : get_schema (resample c s2) = get_schema c := rfl
  unfold main
  rw [hcc, hgs]
  by_cases hconn : c.failConnect = true
  · rw [if_pos hconn, if_pos hconn]
    exact ⟨rfl, trivial, rfl⟩
  · rw [if_neg hconn, if_neg hconn]
    cases hg : get_schema c with
    | error e => exact ⟨rfl, trivial, rfl⟩
    | ok o =>
      cases o with
      | none => exact ⟨rfl, trivial, rfl⟩
      | some schema =>
        have hqual : check_anonymization_quality (resample c s2) schema =
            check_anonymization_quality c schema := rfl
        have hkan : check_k_anonymity (resample c s2) schema 5 =
            check_k_anonymity c schema 5 := rfl
        rcases check_no_pii_rel c s2 hp with ⟨h1, h2⟩ | ⟨l1, l2, h1, h2, hperm⟩
        · rw [h1, h2]
          exact ⟨rfl, trivial, rfl⟩
        · rw [h1, h2]
          dsimp only
          rw [hqual, hkan]
          cases hq : check_anonymization_quality c schema with
          | error e => exact ⟨rfl, trivial, rfl⟩
          | ok m =>
            dsimp only
            cases hk : check_k_anonymity c schema 5 with
            | error e => exact ⟨rfl, trivial, rfl⟩
            | ok kOk =>
              dsimp only
              refine ⟨?_, ⟨hperm.symm, rfl, rfl⟩, rfl⟩
              rw [hperm.isEmpty_eq]

/-- Store used by the C9 witness: one marts column sampling two values. -/
def dbC9 : DB :=
  { tablesCatalog := [ ("main_intermediate", "int_services_enriched"), ("marts", "services") ],
    columnsCatalog := [ ("marts", "services", "contact", "VARCHAR") ],
    sample := fun t col =>
      if t == "services" && col == "contact" then [ "a@mairie.fr", "rien" ] else [],
    enriched := [] }

/-- Connection used by the C9 witness. -/
def connC9 : Conn :=
  cleanConn dbC9

/-- The C9 witness resampling: the same two values in the opposite order. -/
def s2C9 : String → String → List String :=
  fun t col => if t == "services" && col == "contact" then [ "rien", "a@mairie.fr" ] else []

/-- Witness for claim C9. -/
theorem validator_two_runs_agree_witness :
    (main (resample connC9 s2C9)).exitCode = (main connC9).exitCode ∧
    SameReport (main (resample connC9 s2C9)).displayed (main connC9).displayed ∧
    (main (resample connC9 s2C9)).stages = (main connC9).stages :=
  validator_two_runs_agree connC9 s2C9 (by decide)

/-! ## The anonymization exemption is a prefix test -/

theorem matchEnds_seq (r1 r2 : RE) (s : List Char) (i : Nat) :
    matchEnds (.seq r1 r2) s i = (matchEnds r1 s i).flatMap (fun j => matchEnds r2 s j) := rfl

theorem at_of_isPrefixOf {s : List Char} {j : Nat}
    (h : List.isPrefixOf [ '@' ] (s.drop j) = true) : s[j]? = some '@' := by
  have h0 : (s.drop j)[0]? = some '@' := by
    cases hd : s.drop j with
    | nil => rw [hd] at h; simp [List.isPrefixOf] at h
    | cons c cs =>
      rw [hd] at h
      have hc : '@' = c := by simpa [List.isPrefixOf] using h
      simp [← hc]
  rw [List.getElem?_drop] at h0
  simpa using h0

/-- Every match of the email pattern goes through its unique at sign; when
the text after that at sign begins with the anonymization domain, the
negative lookahead kills every match attempt. -/
theorem matchEnds_emailAt_eq_nil {s : List Char} {k : Nat}
    (hk : s[k]? = some '@')
    (huniq : ∀ j, j < s.length → s[j]? = some '@' → j = k)
    (hpref : anonDomain.isPrefixOf (s.drop (k + 1)) = true) (j : Nat) :
    matchEnds emailAt s j = [] := by
  rw [emailAt, matchEnds_seq]
  cases hpre : List.isPrefixOf [ '@' ] (s.drop j) with
  | false => simp [matchEnds, hpre]
  | true =>
    have hj : s[j]? = some '@' := at_of_isPrefixOf hpre
    have hjlen : j < s.length := (List.getElem?_eq_some.mp hj).1
    obtain rfl : j = k := huniq j hjlen hj
    have h1 : matchEnds (.lit [ '@' ]) s j = [j + 1] := by simp [matchEnds, hpre]
    rw [h1]
    simp only [List.flatMap_cons, List.flatMap_nil, List.append_nil]
    rw [emailTail, matchEnds_seq]
    have h2 : matchEnds (.nlk (.lit anonDomain)) s (j + 1) = [] := by
      simp [matchEnds, hpref]
    rw [h2]
    rfl

theorem emailSearch_eq_false_of_anon_after_at {s : List Char} {k : Nat}
    (hk : s[k]? = some '@')
    (huniq : ∀ j, j < s.length → s[j]? = some '@' → j = k)
    (hpref : anonDomain.isPrefixOf (s.drop (k + 1)) = true) :
    reSearch EMAIL_PATTERN s = false := by
  have hEmail : ∀ i, matchEnds EMAIL_PATTERN s i = [] := by
    intro i
    rw [EMAIL_PATTERN, matchEnds_seq]
    refine List.flatMap_eq_nil_iff.mpr ?_
    intro a _
    rw [matchEnds_seq]
    refine List.flatMap_eq_nil_iff.mpr ?_
    intro j _
    exact matchEnds_emailAt_eq_nil hk huniq hpref j
  unfold reSearch
  refine List.any_eq_false.mpr ?_
  intro i _
  simp [hEmail i]

/-- Claim C10: the exemption of the email rule is a prefix test on the characters
after the at sign, not a whole-domain test: for every value with exactly one
at sign followed by the characters `anonymized.gouv.fr`, the email pattern
does not match and the scanner produces no email finding for that value —
even when the actual domain merely starts with the anonymization domain. -/
theorem email_exemption_is_prefix_test (v : String) (k : Nat)
    (hk : v.toList[k]? = some '@')
    (huniq : ∀ j, j < v.toList.length → v.toList[j]? = some '@' → j = k)
    (hpref : anonDomain.isPrefixOf (v.toList.drop (k + 1)) = true) :
    emailSearch v = false ∧
    ∀ t col : String, ("marts." ++ t, col, emailIssue) ∉ scanValue t col v := by
  have h1 : emailSearch v = false :=
    emailSearch_eq_false_of_anon_after_at hk huniq hpref
  refine ⟨h1, ?_⟩
  intro t col hmem
  cases hp : phoneSearch v <;> cases ha : addressSearch v <;>
    simp [scanValue, h1, hp, ha, emailIssue, phoneIssue, addressIssue] at hmem

/-- Witness for claim C10: a domain that merely starts with the
anonymization domain escapes the email rule. -/
theorem email_exemption_is_prefix_test_witness :
    emailSearch ("user@anonymized.gouv.fr.evil.com") = false :=
  (email_exemption_is_prefix_test ("user@anonymized.gouv.fr.evil.com") 4
    (by decide) (by decide) (by decide)).1

end GdprAnon
